import Mathlib

/-!
Shallow embedding of the IPinfo Python client (`src/ipinfo/handler.py`) and
proofs about its request/cache orchestration and enrichment logic.

Python dynamic values are embedded as the inductive `JVal`; Python dictionaries
(JSON objects, the raw API responses) as insertion-ordered association lists;
exceptions as the `PyErr` error type of an `Except` result.  External effects
(the network, the file system, `json.loads`) are oracles passed as function
arguments.  The `DefaultCache` collaborator (module `ipinfo.cache.default`,
not part of the sources being verified) is modelled from the spec.
-/

namespace IPInfo

/-- A Python/JSON value: `None`, booleans, numbers, strings, lists, dicts.
(JSON numbers are modelled as integers; none of the verified logic inspects
numeric values beyond truthiness.) -/
inductive JVal where
  | jnull : JVal
  | jbool : Bool → JVal
  | jnum : Int → JVal
  | jstr : String → JVal
  | jarr : List JVal → JVal
  | jobj : List (String × JVal) → JVal

/-- A raw details mapping: a Python dict with string keys, in insertion order. -/
abbrev Dict := List (String × JVal)

/-- The Python exceptions that the embedded code can raise.
`requestQuotaExceeded` models `ipinfo.exceptions.RequestQuotaExceededError`;
`httpError` models the `requests.HTTPError` raised by
`Response.raise_for_status`, carrying the response status code and body;
`fileNotFound` and `jsonDecodeError` model the errors of `open` and
`json.loads`; `attributeError`, `typeError` and `keyError` model the
corresponding Python built-in exceptions. -/
inductive PyErr where
  | requestQuotaExceeded : PyErr
  | httpError : Nat → String → PyErr
  | jsonDecodeError : PyErr
  | attributeError : PyErr
  | typeError : PyErr
  | fileNotFound : String → PyErr
  | keyError : PyErr
deriving DecidableEq

/-- Python truthiness (`if x:`) for embedded values. -/
def pyTruthy : JVal → Bool
  | .jnull => false
  | .jbool b => b
  | .jnum n => decide (n ≠ 0)
  | .jstr s => decide (s ≠ "")
  | .jarr xs => !xs.isEmpty
  | .jobj fs => !fs.isEmpty

/-- Whether a value is hashable (usable as a `dict.get` argument):
lists and dicts are unhashable in Python. -/
def hashable : JVal → Bool
  | .jarr _ => false
  | .jobj _ => false
  | _ => true

/-- First-occurrence association lookup, the embedding of `d[k]` presence /
`d.get(k)` on a Python dict (whose keys are unique, so first occurrence is
the occurrence). -/
def alookup {α : Type} : List (String × α) → String → Option α
  | [], _ => none
  | (k, v) :: rest, key => if k = key then some v else alookup rest key

/-- `d.get(key)` on a raw details dict: `None` when the key is absent. -/
def pyGet (d : Dict) (key : String) : JVal :=
  (alookup d key).getD .jnull

/-- `d[key] = v` on a Python dict: update in place if the key exists,
append otherwise. -/
def dictSet : Dict → String → JVal → Dict
  | [], key, v => [(key, v)]
  | (k, w) :: rest, key, v =>
    if k = key then (k, v) :: rest else (k, w) :: dictSet rest key v

/-- Splitting a character list at every occurrence of `c`, keeping empty
pieces: the semantics of Python `str.split(",")` at character level. -/
def splitOnChar (c : Char) : List Char → List (List Char)
  | [] => [[]]
  | x :: xs =>
    let r := splitOnChar c xs
    if x = c then [] :: r else (x :: r.headD []) :: r.tail

/-- The embedding of Python `s.split(sep)` for a one-character separator. -/
def pySplit (s : String) (c : Char) : List String :=
  (splitOnChar c s.data).map (fun l => String.mk l)

/-- `Handler._read_coords` (handler.py lines 84–89):

    lat, lon = None, None
    coords = tuple(location.split(",")) if location else ""
    if len(coords) == 2 and coords[0] and coords[1]:
        lat, lon = coords[0], coords[1]
    return lat, lon

A falsy `location` (None, empty string, zero, empty collection) yields
`("", ...)` for `coords`, whose length is not 2, hence `(None, None)`.
A truthy non-string `location` raises `AttributeError` at `.split`. -/
def readCoords (location : JVal) : Except PyErr (JVal × JVal) :=
  if pyTruthy location then
    match location with
    | .jstr s =>
      match pySplit s ',' with
      | [a, b] =>
        if a ≠ "" ∧ b ≠ "" then .ok (.jstr a, .jstr b) else .ok (.jnull, .jnull)
      | _ => .ok (.jnull, .jnull)
    | _ => .error .attributeError
  else
    .ok (.jnull, .jnull)

/-- `self.countries.get(key)`: `countries` is whatever `json.loads` produced.
If it is not a dict, `.get` raises `AttributeError`; if the key is unhashable
(a list or dict), `dict.get` raises `TypeError`; otherwise only a string key
can match a JSON object's string keys, and a missing key yields `None`. -/
def countriesGet (countries : JVal) (key : JVal) : Except PyErr JVal :=
  match countries with
  | .jobj fields =>
    if hashable key then
      match key with
      | .jstr s => .ok (pyGet fields s)
      | _ => .ok .jnull
    else .error .typeError
  | _ => .error .attributeError

/-- The enrichment step of `Handler.getDetails` (handler.py lines 47–50):

    raw_details["country_name"] = self.countries.get(raw_details.get("country"))
    raw_details["latitude"], raw_details["longitude"] = self._read_coords(
        raw_details.get("loc"))

applied to a raw details dict. -/
def enrich (countries : JVal) (raw : Dict) : Except PyErr Dict :=
  match countriesGet countries (pyGet raw "country") with
  | .error e => .error e
  | .ok cn =>
    let d1 := dictSet raw "country_name" cn
    match readCoords (pyGet d1 "loc") with
    | .error e => .error e
    | .ok (lat, lon) =>
      .ok (dictSet (dictSet d1 "latitude" lat) "longitude" lon)

/-- `sys.version_info[0]` of the interpreter running the client. -/
def pyMajorVersion : Nat := 3

/-- `Handler._get_headers` (handler.py lines 70–82): a `user-agent`
identifying client and version, `accept: application/json`, and — when the
configured access token is truthy — `authorization: Bearer <token>`. -/
def getHeaders (accessToken : Option String) : List (String × String) :=
  let headers :=
    [("user-agent", "IPinfoClient/Python" ++ toString pyMajorVersion ++ "/2.0.0"),
     ("accept", "application/json")]
  match accessToken with
  | some tok => if tok ≠ "" then headers ++ [("authorization", "Bearer " ++ tok)] else headers
  | none => headers

/-- An HTTP response as seen by the orchestrator: status code and body text. -/
structure Response where
  status : Nat
  body : String

/-- `requests.Response.raise_for_status`: raises an `HTTPError` carrying the
response exactly when the status is a 4xx or 5xx code. -/
def raiseForStatus (r : Response) : Except PyErr Unit :=
  if 400 ≤ r.status ∧ r.status < 600 then .error (.httpError r.status r.body) else .ok ()

/-- A cache key: the `ip_address` argument, with `None` (no address, "self")
a first-class key distinct from every string. -/
abbrev CKey := Option String

/-- Modelled from the spec: the `DefaultCache` collaborator
(`ipinfo.cache.default`, not among the verified sources).  A bounded
key-value store whose entries carry their insertion time; entries older than
`ttl` are treated as absent, and on insert beyond `maxsize` the
least-recently-inserted entries are evicted.  Values have value semantics:
`get` hands out the stored value, `set` stores the given value. -/
structure Cache where
  maxsize : Nat
  ttl : Nat
  entries : List (CKey × JVal × Nat)

/-- Modelled from the spec: cache lookup at time `now`; an entry older than
the TTL is treated as absent. -/
def cacheGet (c : Cache) (now : Nat) (k : CKey) : Option JVal :=
  match c.entries.find? (fun e => decide (e.1 = k)) with
  | some (_, v, t) => if now - t ≤ c.ttl then some v else none
  | none => none

/-- Modelled from the spec: cache insertion at time `now`, evicting the
oldest entries beyond `maxsize`. -/
def cacheSet (c : Cache) (now : Nat) (k : CKey) (v : JVal) : Cache :=
  { c with entries := (k, v, now) :: (c.entries.filter (fun e => decide (e.1 ≠ k))).take (c.maxsize - 1) }

/-- The Handler's state: configured access token, loaded country table, cache.
(The open `request_options` map — transport options passed through to
`requests.get`, with `timeout` defaulted to 2 — does not influence any
verified behaviour and is not carried.) -/
structure Handler where
  accessToken : Option String
  countries : JVal
  cache : Cache

/-- `API_URL` (handler.py line 22). -/
def API_URL : String := "https://ipinfo.io"

/-- `CACHE_MAXSIZE` (handler.py line 23). -/
def CACHE_MAXSIZE : Nat := 4096

/-- `CACHE_TTL` (handler.py line 24). -/
def CACHE_TTL : Nat := 60 * 60 * 24

/-- URL construction in `_requestDetails` (lines 56–58): the base API URL,
suffixed with `/<ip_address>` when the address is truthy. -/
def buildUrl (ip : CKey) : String :=
  match ip with
  | some a => if a = "" then API_URL else API_URL ++ "/" ++ a
  | none => API_URL

/-- The outcome of one `getDetails` / `_requestDetails` call: the returned
value or raised error, the cache state afterwards, and how many network
requests were issued. -/
structure CallOut (α : Type) where
  result : Except PyErr α
  cache : Cache
  nreq : Nat

/-- `Handler._requestDetails` (handler.py lines 53–68): on a cache hit return
the cached value; on a miss issue one GET via the `net` oracle (applied to
the built URL and the built headers), raise `RequestQuotaExceededError` on
status 429, `raise_for_status` otherwise, parse the body with the `pj`
(`json.loads`) oracle, store the parsed value in the cache, and return the
freshly read-back cache entry. -/
def requestDetails (pj : String → Option JVal) (h : Handler)
    (net : String → List (String × String) → Response) (now : Nat) (ip : CKey) :
    CallOut JVal :=
  match cacheGet h.cache now ip with
  | some v => ⟨.ok v, h.cache, 0⟩
  | none =>
    let resp := net (buildUrl ip) (getHeaders h.accessToken)
    if resp.status = 429 then ⟨.error .requestQuotaExceeded, h.cache, 1⟩
    else
      match raiseForStatus resp with
      | .error e => ⟨.error e, h.cache, 1⟩
      | .ok _ =>
        match pj resp.body with
        | none => ⟨.error .jsonDecodeError, h.cache, 1⟩
        | some v =>
          let c2 := cacheSet h.cache now ip v
          match cacheGet c2 now ip with
          | some w => ⟨.ok w, c2, 1⟩
          | none => ⟨.error .keyError, c2, 1⟩

/-- `Handler.getDetails` (handler.py lines 44–51): resolve the raw details
through `_requestDetails`, then enrich them with `country_name`, `latitude`
and `longitude`.  A raw value that is not a dict makes `raw_details.get`
raise `AttributeError`.  The returned dict is the finalized record (the
`Details` wrapper of module `ipinfo.details`, not among the verified sources,
is per the spec a read-only view of this mapping). -/
def getDetails (pj : String → Option JVal) (h : Handler)
    (net : String → List (String × String) → Response) (now : Nat) (ip : CKey) :
    CallOut Dict :=
  match requestDetails pj h net now ip with
  | ⟨.error e, c, n⟩ => ⟨.error e, c, n⟩
  | ⟨.ok raw, c, n⟩ =>
    match raw with
    | .jobj d =>
      match enrich h.countries d with
      | .ok d2 => ⟨.ok d2, c, n⟩
      | .error e => ⟨.error e, c, n⟩
    | _ => ⟨.error .attributeError, c, n⟩

/-- `COUNTRY_FILE_DEFAULT` resolved against the package directory
(handler.py lines 25, 93–96). -/
def defaultCountriesPath : String := "ipinfo/countries.json"

/-- The countries-file resolution of `_read_country_names` (lines 93–96):
a falsy argument (absent or empty) selects the bundled default file. -/
def resolveCountriesFile : Option String → String
  | none => defaultCountriesPath
  | some p => if p = "" then defaultCountriesPath else p

/-- `Handler._read_country_names` (handler.py lines 91–100): open and read
the countries file through the `fs` file-system oracle (`none` = the file is
missing and `open` raises), then parse it with the `pj` (`json.loads`)
oracle (`none` = invalid JSON, `JSONDecodeError`). -/
def readCountryNames (pj : String → Option JVal) (fs : String → Option String)
    (countriesFile : Option String) : Except PyErr JVal :=
  let path := resolveCountriesFile countriesFile
  match fs path with
  | none => .error (.fileNotFound path)
  | some contents =>
    match pj contents with
    | none => .error .jsonDecodeError
    | some v => .ok v

/-- `Handler.__init__` (handler.py lines 28–42): record the access token,
load the country table (any failure there propagates and construction
fails), and create the default cache with the configured `maxsize` and
`ttl`.  The injectable-cache and request-options plumbing carries no
verified behaviour. -/
def handlerInit (pj : String → Option JVal) (fs : String → Option String)
    (accessToken : Option String) (countriesFile : Option String)
    (maxsize ttl : Nat) : Except PyErr Handler :=
  match readCountryNames pj fs countriesFile with
  | .error e => .error e
  | .ok countries => .ok ⟨accessToken, countries, ⟨maxsize, ttl, []⟩⟩

/-- Modelled from the spec: the spec's error taxonomy groups the
construction-time country-file failures — the file-open error and the
`json.loads` decode error that `_read_country_names` lets propagate — under
the name `ConfigurationError`. -/
def configurationErrorKind : PyErr → Bool
  | .fileNotFound _ => true
  | .jsonDecodeError => true
  | _ => false

/-- The embedding of an absent-or-string `loc` field value (`raw.get("loc")`
when the raw response carries no `loc` key or a string one). -/
def embedLoc : Option String → JVal
  | none => .jnull
  | some s => .jstr s

/-- The spec's shape condition on the raw `loc` field (claim C3): present,
and a string containing exactly one comma that separates two non-empty
substrings. -/
def locWellFormed (loc : Option String) : Prop :=
  ∃ a b : String, loc = some (a ++ "," ++ b) ∧ a ≠ "" ∧ b ≠ "" ∧
    (',' ∉ a.data) ∧ (',' ∉ b.data)

/-! ### Helper lemmas about the dict and split primitives -/

theorem alookup_dictSet_self (d : Dict) (k : String) (v : JVal) :
    alookup (dictSet d k v) k = some v := by
  induction d with
  | nil => simp [dictSet, alookup]
  | cons e rest ih =>
    obtain ⟨k', w⟩ := e
    by_cases h : k' = k
    · simp [dictSet, alookup, h]
    · simp [dictSet, alookup, h, ih]

theorem alookup_dictSet_ne (d : Dict) (k k' : String) (v : JVal) (hne : k' ≠ k) :
    alookup (dictSet d k v) k' = alookup d k' := by
  induction d with
  | nil => simp [dictSet, alookup, Ne.symm hne]
  | cons e rest ih =>
    obtain ⟨k0, w⟩ := e
    by_cases h : k0 = k
    · subst h
      simp [dictSet, alookup, Ne.symm hne]
    · simp [dictSet, alookup, h, ih]

theorem dictSet_eq_self (d : Dict) (k : String) (v : JVal)
    (h : alookup d k = some v) : dictSet d k v = d := by
  induction d with
  | nil => simp [alookup] at h
  | cons e rest ih =>
    obtain ⟨k0, w⟩ := e
    by_cases hk : k0 = k
    · subst hk
      simp [alookup] at h
      simp [dictSet, h]
    · simp [alookup, hk] at h
      simp [dictSet, hk, ih h]

theorem pyGet_dictSet_ne (d : Dict) (k k' : String) (v : JVal) (hne : k' ≠ k) :
    pyGet (dictSet d k v) k' = pyGet d k' := by
  simp [pyGet, alookup_dictSet_ne d k k' v hne]

theorem splitOnChar_ne_nil (c : Char) (l : List Char) : splitOnChar c l ≠ [] := by
  induction l with
  | nil => simp [splitOnChar]
  | cons x xs ih =>
    simp only [splitOnChar]
    by_cases h : x = c <;> simp [h]

theorem splitOnChar_of_not_mem (c : Char) (l : List Char) (h : c ∉ l) :
    splitOnChar c l = [l] := by
  induction l with
  | nil => simp [splitOnChar]
  | cons x xs ih =>
    have hx : x ≠ c := fun he => h (he ▸ List.mem_cons_self _ _)
    have hxs : c ∉ xs := fun hm => h (List.mem_cons_of_mem _ hm)
    simp [splitOnChar, hx, ih hxs]

theorem splitOnChar_append (c : Char) (as bs : List Char) (h : c ∉ as) :
    splitOnChar c (as ++ c :: bs) = as :: splitOnChar c bs := by
  induction as with
  | nil => simp [splitOnChar]
  | cons a as' ih =>
    have ha : a ≠ c := fun he => h (he ▸ List.mem_cons_self _ _)
    have has : c ∉ as' := fun hm => h (List.mem_cons_of_mem _ hm)
    simp [splitOnChar, ha, ih has]

theorem splitOnChar_eq_single (c : Char) (l zs : List Char)
    (h : splitOnChar c l = [zs]) : l = zs ∧ c ∉ zs := by
  induction l generalizing zs with
  | nil =>
    simp [splitOnChar] at h
    simp [h]
  | cons x xs ih =>
    by_cases hx : x = c
    · subst hx
      simp [splitOnChar] at h
      exact absurd h.2 (splitOnChar_ne_nil _ _)
    · simp [splitOnChar, hx] at h
      match hr : splitOnChar c xs with
      | [] => exact absurd hr (splitOnChar_ne_nil _ _)
      | r0 :: rest =>
        rw [hr] at h
        simp at h
        obtain ⟨hzs, hrest⟩ := h
        subst hrest
        obtain ⟨hxs, hc⟩ := ih r0 hr
        subst hxs
        refine ⟨hzs, ?_⟩
        rw [← hzs]
        simp only [List.mem_cons, not_or]
        exact ⟨fun he => hx he.symm, hc⟩

theorem splitOnChar_eq_pair (c : Char) (l xs ys : List Char)
    (h : splitOnChar c l = [xs, ys]) :
    l = xs ++ c :: ys ∧ c ∉ xs ∧ c ∉ ys := by
  induction l generalizing xs with
  | nil => simp [splitOnChar] at h
  | cons x l' ih =>
    by_cases hx : x = c
    · subst hx
      simp [splitOnChar] at h
      obtain ⟨hxs, hr⟩ := h
      obtain ⟨hl, hc⟩ := splitOnChar_eq_single x l' ys hr
      subst hl hxs
      simp [hc]
    · simp [splitOnChar, hx] at h
      match hr : splitOnChar c l' with
      | [] => exact absurd hr (splitOnChar_ne_nil _ _)
      | r0 :: rest =>
        rw [hr] at h
        simp at h
        obtain ⟨hxs, hrest⟩ := h
        subst hrest
        obtain ⟨hl, hc0, hcy⟩ := ih r0 hr
        subst hl
        refine ⟨?_, ?_, hcy⟩
        · rw [← hxs]
          simp
        · rw [← hxs]
          simp only [List.mem_cons, not_or]
          exact ⟨fun he => hx he.symm, hc0⟩

/-! ### Helper lemmas about the cache and the orchestrator -/

theorem cacheSet_ttl (c : Cache) (now : Nat) (k : CKey) (v : JVal) :
    (cacheSet c now k v).ttl = c.ttl := rfl

theorem cacheGet_cacheSet_self (c : Cache) (now t2 : Nat) (k : CKey) (v : JVal)
    (h : t2 - now ≤ c.ttl) : cacheGet (cacheSet c now k v) t2 k = some v := by
  simp [cacheGet, cacheSet, List.find?, h]

theorem requestDetails_hit (pj : String → Option JVal) (h : Handler)
    (net : String → List (String × String) → Response) (now : Nat) (ip : CKey)
    (v : JVal) (hv : cacheGet h.cache now ip = some v) :
    requestDetails pj h net now ip = ⟨.ok v, h.cache, 0⟩ := by
  unfold requestDetails
  rw [hv]

theorem requestDetails_nreq_le_one (pj : String → Option JVal) (h : Handler)
    (net : String → List (String × String) → Response) (now : Nat) (ip : CKey) :
    (requestDetails pj h net now ip).nreq ≤ 1 := by
  unfold requestDetails
  cases hc : cacheGet h.cache now ip with
  | some v => simp
  | none =>
    dsimp only
    split
    · simp
    · split
      · simp
      · split
        · simp
        · split <;> simp

theorem requestDetails_miss_ok (pj : String → Option JVal) (h : Handler)
    (net : String → List (String × String) → Response) (now : Nat) (ip : CKey)
    (v : JVal) (hmiss : cacheGet h.cache now ip = none)
    (hres : (requestDetails pj h net now ip).result = .ok v) :
    pj (net (buildUrl ip) (getHeaders h.accessToken)).body = some v ∧
      requestDetails pj h net now ip = ⟨.ok v, cacheSet h.cache now ip v, 1⟩ := by
  unfold requestDetails at hres ⊢
  rw [hmiss] at hres ⊢
  dsimp only at hres ⊢
  by_cases h429 : (net (buildUrl ip) (getHeaders h.accessToken)).status = 429
  · simp [h429] at hres
  · rw [if_neg h429] at hres ⊢
    cases hrfs : raiseForStatus (net (buildUrl ip) (getHeaders h.accessToken)) with
    | error e => rw [hrfs] at hres; simp at hres
    | ok u =>
      rw [hrfs] at hres
      dsimp only at hres
      cases hpj : pj (net (buildUrl ip) (getHeaders h.accessToken)).body with
      | none => rw [hpj] at hres; simp at hres
      | some w =>
        rw [hpj] at hres
        dsimp only at hres
        have hget : cacheGet (cacheSet h.cache now ip w) now ip = some w :=
          cacheGet_cacheSet_self h.cache now now ip w (by simp)
        rw [hget] at hres
        dsimp only at hres
        injection hres with hwv
        subst hwv
        simp [hget]

theorem requestDetails_miss_cache (pj : String → Option JVal) (h : Handler)
    (net : String → List (String × String) → Response) (now : Nat) (ip : CKey)
    (hmiss : cacheGet h.cache now ip = none) :
    (requestDetails pj h net now ip).cache = h.cache ∨
      ∃ v, pj (net (buildUrl ip) (getHeaders h.accessToken)).body = some v ∧
        (requestDetails pj h net now ip).cache = cacheSet h.cache now ip v := by
  unfold requestDetails
  rw [hmiss]
  dsimp only
  split
  · left; rfl
  · split
    · left; rfl
    · cases hpj : pj (net (buildUrl ip) (getHeaders h.accessToken)).body with
      | none => left; rfl
      | some v =>
        right
        refine ⟨v, rfl, ?_⟩
        dsimp only
        split <;> rfl

theorem getDetails_cache (pj : String → Option JVal) (h : Handler)
    (net : String → List (String × String) → Response) (now : Nat) (ip : CKey) :
    (getDetails pj h net now ip).cache = (requestDetails pj h net now ip).cache := by
  unfold getDetails
  rcases hrd : requestDetails pj h net now ip with ⟨res, c, n⟩
  cases res with
  | error e => simp
  | ok raw =>
    cases raw <;> try simp
    case jobj d => cases enrich h.countries d <;> simp

theorem getDetails_nreq (pj : String → Option JVal) (h : Handler)
    (net : String → List (String × String) → Response) (now : Nat) (ip : CKey) :
    (getDetails pj h net now ip).nreq = (requestDetails pj h net now ip).nreq := by
  unfold getDetails
  rcases hrd : requestDetails pj h net now ip with ⟨res, c, n⟩
  cases res with
  | error e => simp
  | ok raw =>
    cases raw <;> try simp
    case jobj d => cases enrich h.countries d <;> simp

theorem getDetails_ok_elim (pj : String → Option JVal) (h : Handler)
    (net : String → List (String × String) → Response) (now : Nat) (ip : CKey)
    (d : Dict) (hd : (getDetails pj h net now ip).result = .ok d) :
    ∃ raw, (requestDetails pj h net now ip).result = .ok (.jobj raw) ∧
      enrich h.countries raw = .ok d := by
  unfold getDetails at hd
  rcases hrd : requestDetails pj h net now ip with ⟨res, c, n⟩
  rw [hrd] at hd
  cases res with
  | error e => simp at hd
  | ok raw =>
    cases raw <;> try simp at hd
    case jobj fields =>
      cases henr : enrich h.countries fields with
      | error e => rw [henr] at hd; simp at hd
      | ok d2 =>
        rw [henr] at hd
        simp at hd
        exact ⟨fields, by simp, by rw [henr, hd]⟩

theorem getDetails_error_prop (pj : String → Option JVal) (h : Handler)
    (net : String → List (String × String) → Response) (now : Nat) (ip : CKey)
    (e : PyErr) (he : (requestDetails pj h net now ip).result = .error e) :
    (getDetails pj h net now ip).result = .error e := by
  unfold getDetails
  rcases hrd : requestDetails pj h net now ip with ⟨res, c, n⟩
  rw [hrd] at he
  cases res with
  | error e' => simp at he; subst he; simp
  | ok raw => simp at he

/-! ### Claim theorems -/

/-- C1: The orchestrator mutates the cache only on a cache miss, and the
value it stores is the raw pre-enrichment response.  On a hit the cache is
left unchanged — the derived fields `country_name`, `latitude`, `longitude`
are recomputed outside it and never written back — and on a miss the cache
is either left unchanged (failure) or receives exactly the `json.loads`
image of the response body. -/
theorem C1_cache_raw_only_mutated_on_miss (pj : String → Option JVal) (h : Handler)
    (net : String → List (String × String) → Response) (now : Nat) (ip : CKey) :
    ((cacheGet h.cache now ip).isSome →
        (getDetails pj h net now ip).cache = h.cache) ∧
    (cacheGet h.cache now ip = none →
        (getDetails pj h net now ip).cache = h.cache ∨
        ∃ v, pj (net (buildUrl ip) (getHeaders h.accessToken)).body = some v ∧
          (getDetails pj h net now ip).cache = cacheSet h.cache now ip v) := by
  constructor
  · intro hsome
    rw [getDetails_cache]
    obtain ⟨v, hv⟩ := Option.isSome_iff_exists.mp hsome
    rw [requestDetails_hit pj h net now ip v hv]
  · intro hmiss
    rw [getDetails_cache]
    exact requestDetails_miss_cache pj h net now ip hmiss

/-- Witness for C1 at a concrete hit: the cache already holds the key, and
the `getDetails` call leaves the cache exactly as it was. -/
theorem C1_cache_raw_only_mutated_on_miss_witness :
    (getDetails (fun _ => some (.jobj [])) ⟨none, .jobj [],
        ⟨10, 100, [(some "8.8.8.8", .jobj [], 0)]⟩⟩ (fun _ _ => ⟨200, ""⟩) 5
        (some "8.8.8.8")).cache =
      (⟨10, 100, [(some "8.8.8.8", .jobj [], 0)]⟩ : Cache) :=
  (C1_cache_raw_only_mutated_on_miss (fun _ => some (.jobj []))
    ⟨none, .jobj [], ⟨10, 100, [(some "8.8.8.8", .jobj [], 0)]⟩⟩
    (fun _ _ => ⟨200, ""⟩) 5 (some "8.8.8.8")).1 rfl

/-- C2: two successive `getDetails` calls on the same key issue at most one
network request in total when the TTL has not elapsed between the calls (the
first call succeeding): if the first call hit the network, the second is
served from the cache entry it stored. -/
theorem C2_two_calls_at_most_one_request (pj : String → Option JVal) (h : Handler)
    (net : String → List (String × String) → Response) (t1 t2 : Nat) (ip : CKey)
    (d1 : Dict) (h1 : (getDetails pj h net t1 ip).result = .ok d1)
    (httl : t2 - t1 ≤ h.cache.ttl) :
    (getDetails pj h net t1 ip).nreq +
      (getDetails pj { h with cache := (getDetails pj h net t1 ip).cache } net
          t2 ip).nreq ≤ 1 := by
  rw [getDetails_nreq, getDetails_nreq]
  cases hc : cacheGet h.cache t1 ip with
  | some v =>
    rw [requestDetails_hit pj h net t1 ip v hc]
    have hle := requestDetails_nreq_le_one pj
      { h with cache := (getDetails pj h net t1 ip).cache } net t2 ip
    simpa using hle
  | none =>
    obtain ⟨raw, hraw, henr⟩ := getDetails_ok_elim pj h net t1 ip d1 h1
    obtain ⟨hpj, heq⟩ := requestDetails_miss_ok pj h net t1 ip (.jobj raw) hc hraw
    have hcache1 : (getDetails pj h net t1 ip).cache =
        cacheSet h.cache t1 ip (.jobj raw) := by
      rw [getDetails_cache, heq]
    have hhit : cacheGet (cacheSet h.cache t1 ip (.jobj raw)) t2 ip =
        some (.jobj raw) :=
      cacheGet_cacheSet_self h.cache t1 t2 ip _ httl
    rw [heq, requestDetails_hit pj
      { h with cache := (getDetails pj h net t1 ip).cache } net t2 ip (.jobj raw)
      (by rw [hcache1]; exact hhit)]
    simp

/-- Witness for C2: a concrete first call on an empty cache (one request)
followed by a second call 50 time units later with TTL 100. -/
theorem C2_two_calls_at_most_one_request_witness :
    (getDetails (fun _ => some (.jobj [])) ⟨none, .jobj [], ⟨10, 100, []⟩⟩
        (fun _ _ => ⟨200, ""⟩) 0 (some "8.8.8.8")).nreq +
      (getDetails (fun _ => some (.jobj []))
        { (⟨none, .jobj [], ⟨10, 100, []⟩⟩ : Handler) with
          cache := (getDetails (fun _ => some (.jobj []))
            ⟨none, .jobj [], ⟨10, 100, []⟩⟩ (fun _ _ => ⟨200, ""⟩) 0
            (some "8.8.8.8")).cache } (fun _ _ => ⟨200, ""⟩) 50
        (some "8.8.8.8")).nreq ≤ 1 :=
  C2_two_calls_at_most_one_request (fun _ => some (.jobj []))
    ⟨none, .jobj [], ⟨10, 100, []⟩⟩ (fun _ _ => ⟨200, ""⟩) 0 50 (some "8.8.8.8")
    [("country_name", .jnull), ("latitude", .jnull), ("longitude", .jnull)]
    rfl (by decide)

/-- C5: for a key not in the cache, a 429 response makes `getDetails` fail
with `RequestQuotaExceededError`, after exactly one request (no retry), and
the cache is not populated for that key. -/
theorem C5_quota_exceeded_no_cache_write (pj : String → Option JVal) (h : Handler)
    (net : String → List (String × String) → Response) (now : Nat) (ip : CKey)
    (hmiss : cacheGet h.cache now ip = none)
    (h429 : (net (buildUrl ip) (getHeaders h.accessToken)).status = 429) :
    (getDetails pj h net now ip).result = .error .requestQuotaExceeded ∧
    (getDetails pj h net now ip).cache = h.cache ∧
    cacheGet (getDetails pj h net now ip).cache now ip = none ∧
    (getDetails pj h net now ip).nreq = 1 := by
  have hreq : requestDetails pj h net now ip =
      ⟨.error .requestQuotaExceeded, h.cache, 1⟩ := by
    unfold requestDetails
    rw [hmiss]
    dsimp only
    rw [if_pos h429]
  refine ⟨getDetails_error_prop pj h net now ip _ (by rw [hreq]), ?_, ?_, ?_⟩
  · rw [getDetails_cache, hreq]
  · rw [getDetails_cache, hreq]
    exact hmiss
  · rw [getDetails_nreq, hreq]

/-- Witness for C5: a concrete 429 response on an empty cache. -/
theorem C5_quota_exceeded_no_cache_write_witness :
    (getDetails (fun _ => none) ⟨none, .jobj [], ⟨10, 100, []⟩⟩
        (fun _ _ => ⟨429, ""⟩) 0 (some "1.2.3.4")).result =
      .error .requestQuotaExceeded ∧
    (getDetails (fun _ => none) ⟨none, .jobj [], ⟨10, 100, []⟩⟩
        (fun _ _ => ⟨429, ""⟩) 0 (some "1.2.3.4")).cache =
      (⟨10, 100, []⟩ : Cache) ∧
    cacheGet (getDetails (fun _ => none) ⟨none, .jobj [], ⟨10, 100, []⟩⟩
        (fun _ _ => ⟨429, ""⟩) 0 (some "1.2.3.4")).cache 0 (some "1.2.3.4") =
      none ∧
    (getDetails (fun _ => none) ⟨none, .jobj [], ⟨10, 100, []⟩⟩
        (fun _ _ => ⟨429, ""⟩) 0 (some "1.2.3.4")).nreq = 1 :=
  C5_quota_exceeded_no_cache_write (fun _ => none) ⟨none, .jobj [], ⟨10, 100, []⟩⟩
    (fun _ _ => ⟨429, ""⟩) 0 (some "1.2.3.4") rfl rfl

/-- C6 counterexample: a 304 response has a non-2xx status other than 429,
yet `getDetails` does not fail with an HTTP error — `raise_for_status` only
raises for 4xx/5xx — and it populates the cache for the key. -/
theorem C6_counterexample_304_succeeds :
    (getDetails (fun _ => some (.jobj [])) ⟨none, .jobj [], ⟨10, 100, []⟩⟩
        (fun _ _ => ⟨304, ""⟩) 0 (some "8.8.8.8")).result =
      .ok [("country_name", .jnull), ("latitude", .jnull), ("longitude", .jnull)] ∧
    (getDetails (fun _ => some (.jobj [])) ⟨none, .jobj [], ⟨10, 100, []⟩⟩
        (fun _ _ => ⟨304, ""⟩) 0 (some "8.8.8.8")).cache.entries =
      [(some "8.8.8.8", .jobj [], 0)] :=
  ⟨rfl, rfl⟩

/-- C6 (amended): for a key not in the cache, a response whose status is a
4xx or 5xx code other than 429 makes `getDetails` fail with the generic HTTP
error carrying that status code and the response body, and the cache is not
populated for that key. -/
theorem C6_http_error_carries_status_and_body (pj : String → Option JVal)
    (h : Handler) (net : String → List (String × String) → Response) (now : Nat)
    (ip : CKey) (hmiss : cacheGet h.cache now ip = none)
    (hlo : 400 ≤ (net (buildUrl ip) (getHeaders h.accessToken)).status)
    (hhi : (net (buildUrl ip) (getHeaders h.accessToken)).status < 600)
    (hne : (net (buildUrl ip) (getHeaders h.accessToken)).status ≠ 429) :
    (getDetails pj h net now ip).result =
      .error (.httpError (net (buildUrl ip) (getHeaders h.accessToken)).status
        (net (buildUrl ip) (getHeaders h.accessToken)).body) ∧
    (getDetails pj h net now ip).cache = h.cache ∧
    cacheGet (getDetails pj h net now ip).cache now ip = none := by
  have hreq : requestDetails pj h net now ip =
      ⟨.error (.httpError (net (buildUrl ip) (getHeaders h.accessToken)).status
        (net (buildUrl ip) (getHeaders h.accessToken)).body), h.cache, 1⟩ := by
    unfold requestDetails
    rw [hmiss]
    dsimp only
    rw [if_neg hne]
    have hrfs : raiseForStatus (net (buildUrl ip) (getHeaders h.accessToken)) =
        .error (.httpError (net (buildUrl ip) (getHeaders h.accessToken)).status
          (net (buildUrl ip) (getHeaders h.accessToken)).body) := by
      unfold raiseForStatus
      rw [if_pos ⟨hlo, hhi⟩]
    rw [hrfs]
  refine ⟨getDetails_error_prop pj h net now ip _ (by rw [hreq]), ?_, ?_⟩
  · rw [getDetails_cache, hreq]
  · rw [getDetails_cache, hreq]
    exact hmiss

/-- Witness for the amended C6: a concrete 500 response with body
`"oops"`. -/
theorem C6_http_error_carries_status_and_body_witness :
    (getDetails (fun _ => none) ⟨none, .jobj [], ⟨10, 100, []⟩⟩
        (fun _ _ => ⟨500, "oops"⟩) 0 (some "1.2.3.4")).result =
      .error (.httpError 500 "oops") ∧
    (getDetails (fun _ => none) ⟨none, .jobj [], ⟨10, 100, []⟩⟩
        (fun _ _ => ⟨500, "oops"⟩) 0 (some "1.2.3.4")).cache =
      (⟨10, 100, []⟩ : Cache) ∧
    cacheGet (getDetails (fun _ => none) ⟨none, .jobj [], ⟨10, 100, []⟩⟩
        (fun _ _ => ⟨500, "oops"⟩) 0 (some "1.2.3.4")).cache 0 (some "1.2.3.4") =
      none :=
  C6_http_error_carries_status_and_body (fun _ => none)
    ⟨none, .jobj [], ⟨10, 100, []⟩⟩ (fun _ _ => ⟨500, "oops"⟩) 0 (some "1.2.3.4")
    rfl (by decide) (by decide) (by decide)

theorem data_comma : ("," : String).data = [','] := rfl

theorem readCoords_wellFormed (a b : String) (ha : a ≠ "") (hb : b ≠ "")
    (hca : ',' ∉ a.data) (hcb : ',' ∉ b.data) :
    readCoords (.jstr (a ++ "," ++ b)) = .ok (.jstr a, .jstr b) := by
  have hdata : (a ++ "," ++ b).data = a.data ++ ',' :: b.data := by
    rw [String.data_append, String.data_append, data_comma]
    simp
  have hs : (a ++ "," ++ b) ≠ "" := by
    intro he
    have hnil : (a ++ "," ++ b).data = [] := by rw [he]
    rw [hdata] at hnil
    simp at hnil
  have ht : pyTruthy (.jstr (a ++ "," ++ b)) = true := by simp [pyTruthy, hs]
  have hsplit : splitOnChar ',' (a ++ "," ++ b).data = [a.data, b.data] := by
    rw [hdata, splitOnChar_append ',' a.data b.data hca,
      splitOnChar_of_not_mem ',' b.data hcb]
  unfold readCoords
  rw [ht, if_pos rfl]
  dsimp only
  simp only [pySplit, hsplit, List.map]
  have hma : String.mk a.data = a := rfl
  have hmb : String.mk b.data = b := rfl
  rw [hma, hmb, if_pos ⟨ha, hb⟩]

theorem readCoords_not_wellFormed (loc : Option String)
    (hnwf : ¬ locWellFormed loc) :
    readCoords (embedLoc loc) = .ok (.jnull, .jnull) := by
  cases loc with
  | none => rfl
  | some s =>
    by_cases hs : s = ""
    · subst hs; rfl
    · have ht : pyTruthy (.jstr s) = true := by simp [pyTruthy, hs]
      show readCoords (.jstr s) = .ok (.jnull, .jnull)
      unfold readCoords
      rw [ht, if_pos rfl]
      dsimp only
      rcases hsp : splitOnChar ',' s.data with _ | ⟨l1, _ | ⟨l2, _ | ⟨l3, rest⟩⟩⟩
      · exact absurd hsp (splitOnChar_ne_nil ',' s.data)
      · simp [pySplit, hsp]
      · obtain ⟨hdec, hc1, hc2⟩ := splitOnChar_eq_pair ',' s.data l1 l2 hsp
        simp only [pySplit, hsp, List.map]
        by_cases hg : (String.mk l1 ≠ "" ∧ String.mk l2 ≠ "")
        · exfalso
          apply hnwf
          refine ⟨String.mk l1, String.mk l2, ?_, hg.1, hg.2, hc1, hc2⟩
          congr 1
          apply String.ext
          rw [String.data_append, String.data_append, hdec, data_comma]
          simp
        · rw [if_neg hg]
      · simp [pySplit, hsp]

/-- C3: the derived `latitude`/`longitude` fields are populated exactly when
the raw `loc` field is a string containing exactly one comma separating two
non-empty substrings — latitude the substring before the comma, longitude the
one after, both kept as strings — and for every other absent-or-string shape
of `loc` both derived fields are absent (None). -/
theorem C3_loc_parsing (loc : Option String) :
    (∀ a b : String, loc = some (a ++ "," ++ b) → a ≠ "" → b ≠ "" →
        (',' ∉ a.data) → (',' ∉ b.data) →
        readCoords (embedLoc loc) = .ok (.jstr a, .jstr b)) ∧
    (¬ locWellFormed loc → readCoords (embedLoc loc) = .ok (.jnull, .jnull)) := by
  constructor
  · rintro a b rfl ha hb hca hcb
    exact readCoords_wellFormed a b ha hb hca hcb
  · exact readCoords_not_wellFormed loc

/-- Witness for C3 at the spec's own example `"37.751,-97.822"`. -/
theorem C3_loc_parsing_witness :
    readCoords (embedLoc (some "37.751,-97.822")) =
      .ok (.jstr "37.751", .jstr "-97.822") :=
  (C3_loc_parsing (some "37.751,-97.822")).1 "37.751" "-97.822" (by decide)
    (by decide) (by decide) (by decide) (by decide)

theorem readCoords_falsy (v : JVal) (hv : pyTruthy v = false) :
    readCoords v = .ok (.jnull, .jnull) := by
  unfold readCoords
  rw [hv]
  rfl

theorem readCoords_jstr_ok (s : String) : ∃ p, readCoords (.jstr s) = .ok p := by
  by_cases htr : pyTruthy (.jstr s) = true
  · unfold readCoords
    rw [htr, if_pos rfl]
    dsimp only
    rcases pySplit s ',' with _ | ⟨a, _ | ⟨b, _ | _⟩⟩
    · exact ⟨_, rfl⟩
    · exact ⟨_, rfl⟩
    · dsimp only
      by_cases hg : (a ≠ "" ∧ b ≠ "")
      · rw [if_pos hg]; exact ⟨_, rfl⟩
      · rw [if_neg hg]; exact ⟨_, rfl⟩
    · exact ⟨_, rfl⟩
  · exact ⟨_, readCoords_falsy _ (Bool.not_eq_true _ ▸ htr)⟩

/-- C4 counterexample: enrichment can fail.  A truthy non-string `loc`
(here the number 1) makes `location.split(",")` raise `AttributeError`, and
an unhashable `country` (here a list) makes `self.countries.get` raise
`TypeError`. -/
theorem C4_counterexample_enrich_raises :
    enrich (.jobj []) [("loc", .jnum 1)] = .error .attributeError ∧
    enrich (.jobj []) [("country", .jarr [])] = .error .typeError :=
  ⟨rfl, rfl⟩

/-- C4 (amended): the enrichment step never fails provided the raw `country`
value is hashable (not a list or dict) and the raw `loc` value is absent,
falsy, or a string; such absent or malformed fields degrade to absent
derived fields rather than raising. -/
theorem C4_enrich_total_in_range (tbl : List (String × JVal)) (raw : Dict)
    (hcountry : hashable (pyGet raw "country") = true)
    (hloc : pyTruthy (pyGet raw "loc") = false ∨ ∃ s, pyGet raw "loc" = .jstr s) :
    ∃ d, enrich (.jobj tbl) raw = .ok d := by
  have hcn : ∃ cn, countriesGet (.jobj tbl) (pyGet raw "country") = .ok cn := by
    unfold countriesGet
    dsimp only
    rw [hcountry, if_pos rfl]
    cases pyGet raw "country" <;> exact ⟨_, rfl⟩
  obtain ⟨cn, hcn⟩ := hcn
  have hloc2 : pyGet (dictSet raw "country_name" cn) "loc" = pyGet raw "loc" :=
    pyGet_dictSet_ne raw "country_name" "loc" cn (by decide)
  have hrc : ∃ p, readCoords (pyGet (dictSet raw "country_name" cn) "loc") = .ok p := by
    rw [hloc2]
    rcases hloc with hfalsy | ⟨s, hstr⟩
    · exact ⟨_, readCoords_falsy _ hfalsy⟩
    · rw [hstr]
      exact readCoords_jstr_ok s
  obtain ⟨⟨lat, lon⟩, hrc⟩ := hrc
  refine ⟨dictSet (dictSet (dictSet raw "country_name" cn) "latitude" lat)
    "longitude" lon, ?_⟩
  unfold enrich
  rw [hcn]
  dsimp only
  rw [hrc]

/-- Witness for the amended C4: a raw mapping whose `country` is absent and
whose `loc` is the malformed string `"1.23"` enriches without error. -/
theorem C4_enrich_total_in_range_witness :
    ∃ d, enrich (.jobj [("US", .jstr "United States")]) [("loc", .jstr "1.23")] = .ok d :=
  C4_enrich_total_in_range [("US", .jstr "United States")] [("loc", .jstr "1.23")]
    rfl (Or.inr ⟨"1.23", rfl⟩)

/-- C7: Handler construction fails fast when the country-data file is
missing or not valid JSON: `__init__` loads the country table up front, the
failure propagates out of the constructor before any lookup is possible, and
no Handler value is produced — there is no lazy or partial fallback.  The
raised error is the propagated file-open or JSON-decode error, the
construction-time kind the spec's taxonomy names `ConfigurationError`. -/
theorem C7_construction_fails_fast (pj : String → Option JVal)
    (fs : String → Option String) (accessToken countriesFile : Option String)
    (maxsize ttl : Nat)
    (hbad : fs (resolveCountriesFile countriesFile) = none ∨
      ∃ s, fs (resolveCountriesFile countriesFile) = some s ∧ pj s = none) :
    ∃ e, handlerInit pj fs accessToken countriesFile maxsize ttl = .error e ∧
      configurationErrorKind e = true := by
  rcases hbad with hmissing | ⟨s, hsome, hparse⟩
  · refine ⟨.fileNotFound (resolveCountriesFile countriesFile), ?_, rfl⟩
    unfold handlerInit readCountryNames
    dsimp only
    rw [hmissing]
  · refine ⟨.jsonDecodeError, ?_, rfl⟩
    unfold handlerInit readCountryNames
    dsimp only
    rw [hsome]
    dsimp only
    rw [hparse]

/-- Witness for C7: a file system with no files at all. -/
theorem C7_construction_fails_fast_witness :
    ∃ e, handlerInit (fun _ => none) (fun _ => none) none none 10 100 = .error e ∧
      configurationErrorKind e = true :=
  C7_construction_fails_fast (fun _ => none) (fun _ => none) none none 10 100
    (Or.inl rfl)

/-- C8: enrichment is idempotent — if enriching a raw mapping succeeds with
result `d`, then enriching `d` again with the same country table succeeds
and returns `d` itself, with the same fields and values. -/
theorem C8_enrich_idempotent (countries : JVal) (raw d : Dict)
    (h : enrich countries raw = .ok d) : enrich countries d = .ok d := by
  unfold enrich at h
  cases hcn : countriesGet countries (pyGet raw "country") with
  | error e => rw [hcn] at h; simp at h
  | ok cn =>
    rw [hcn] at h
    dsimp only at h
    cases hrc : readCoords (pyGet (dictSet raw "country_name" cn) "loc") with
    | error e => rw [hrc] at h; simp at h
    | ok p =>
      obtain ⟨lat, lon⟩ := p
      rw [hrc] at h
      dsimp only at h
      injection h with h
      subst h
      have hc : pyGet (dictSet (dictSet (dictSet raw "country_name" cn)
          "latitude" lat) "longitude" lon) "country" = pyGet raw "country" := by
        rw [pyGet_dictSet_ne _ _ _ _ (by decide), pyGet_dictSet_ne _ _ _ _ (by decide),
          pyGet_dictSet_ne _ _ _ _ (by decide)]
      have hcna : alookup (dictSet (dictSet (dictSet raw "country_name" cn)
          "latitude" lat) "longitude" lon) "country_name" = some cn := by
        rw [alookup_dictSet_ne _ _ _ _ (by decide), alookup_dictSet_ne _ _ _ _ (by decide),
          alookup_dictSet_self]
      have hset1 : dictSet (dictSet (dictSet (dictSet raw "country_name" cn)
          "latitude" lat) "longitude" lon) "country_name" cn =
          dictSet (dictSet (dictSet raw "country_name" cn) "latitude" lat)
            "longitude" lon :=
        dictSet_eq_self _ _ _ hcna
      unfold enrich
      rw [hc, hcn]
      dsimp only
      rw [hset1]
      have hlocg : pyGet (dictSet (dictSet (dictSet raw "country_name" cn)
          "latitude" lat) "longitude" lon) "loc" =
          pyGet (dictSet raw "country_name" cn) "loc" := by
        rw [pyGet_dictSet_ne _ _ _ _ (by decide), pyGet_dictSet_ne _ _ _ _ (by decide)]
      rw [hlocg, hrc]
      dsimp only
      have hlata : alookup (dictSet (dictSet (dictSet raw "country_name" cn)
          "latitude" lat) "longitude" lon) "latitude" = some lat := by
        rw [alookup_dictSet_ne _ _ _ _ (by decide), alookup_dictSet_self]
      rw [dictSet_eq_self _ _ _ hlata]
      have hlona : alookup (dictSet (dictSet (dictSet raw "country_name" cn)
          "latitude" lat) "longitude" lon) "longitude" = some lon :=
        alookup_dictSet_self _ _ _
      rw [dictSet_eq_self _ _ _ hlona]

/-- Witness for C8 at a concrete raw mapping with country `US` and loc
`"1,2"`. -/
theorem C8_enrich_idempotent_witness :
    enrich (.jobj [("US", .jstr "United States")])
      [("country", .jstr "US"), ("loc", .jstr "1,2"),
       ("country_name", .jstr "United States"), ("latitude", .jstr "1"),
       ("longitude", .jstr "2")] =
    .ok [("country", .jstr "US"), ("loc", .jstr "1,2"),
       ("country_name", .jstr "United States"), ("latitude", .jstr "1"),
       ("longitude", .jstr "2")] :=
  C8_enrich_idempotent (.jobj [("US", .jstr "United States")])
    [("country", .jstr "US"), ("loc", .jstr "1,2")] _ rfl

/-- C9: the built request headers always carry a `user-agent` identifying
the client and its version and `accept: application/json`; they carry
`authorization: Bearer <token>` exactly when a (non-empty, i.e. truthy)
access token was configured on the Handler. -/
theorem C9_request_headers (a : Option String) :
    alookup (getHeaders a) "user-agent" =
      some ("IPinfoClient/Python" ++ toString pyMajorVersion ++ "/2.0.0") ∧
    alookup (getHeaders a) "accept" = some "application/json" ∧
    (∀ t, a = some t → t ≠ "" →
      alookup (getHeaders a) "authorization" = some ("Bearer " ++ t)) ∧
    ((a = none ∨ a = some "") → alookup (getHeaders a) "authorization" = none) := by
  refine ⟨?_, ?_, ?_, ?_⟩
  · cases a with
    | none => rfl
    | some t =>
      by_cases ht : t ≠ ""
      · simp only [getHeaders, if_pos ht]
        rfl
      · simp only [getHeaders, if_neg ht]
        rfl
  · cases a with
    | none => rfl
    | some t =>
      by_cases ht : t ≠ ""
      · simp only [getHeaders, if_pos ht]
        rfl
      · simp only [getHeaders, if_neg ht]
        rfl
  · rintro t rfl ht
    simp only [getHeaders, if_pos ht]
    simp [alookup]
  · rintro (rfl | rfl)
    · rfl
    · rfl

/-- Witness for C9: a configured token `"tok"` produces the bearer header. -/
theorem C9_request_headers_witness :
    alookup (getHeaders (some "tok")) "authorization" = some ("Bearer " ++ "tok") :=
  (C9_request_headers (some "tok")).2.2.1 "tok" rfl (by decide)

/-- C10: every successful `getDetails` call returns a record that contains
all three derived keys `country_name`, `latitude` and `longitude` — when the
country is unknown or the loc malformed they are present with value `None`
(`jnull`), not omitted. -/
theorem C10_derived_keys_always_present (pj : String → Option JVal) (h : Handler)
    (net : String → List (String × String) → Response) (now : Nat) (ip : CKey)
    (d : Dict) (hd : (getDetails pj h net now ip).result = .ok d) :
    (alookup d "country_name").isSome ∧ (alookup d "latitude").isSome ∧
      (alookup d "longitude").isSome := by
  obtain ⟨raw, hraw, henr⟩ := getDetails_ok_elim pj h net now ip d hd
  unfold enrich at henr
  cases hcn : countriesGet h.countries (pyGet raw "country") with
  | error e => rw [hcn] at henr; simp at henr
  | ok cn =>
    rw [hcn] at henr
    dsimp only at henr
    cases hrc : readCoords (pyGet (dictSet raw "country_name" cn) "loc") with
    | error e => rw [hrc] at henr; simp at henr
    | ok p =>
      obtain ⟨lat, lon⟩ := p
      rw [hrc] at henr
      dsimp only at henr
      injection henr with henr
      subst henr
      refine ⟨?_, ?_, ?_⟩
      · rw [alookup_dictSet_ne _ _ _ _ (by decide), alookup_dictSet_ne _ _ _ _ (by decide),
          alookup_dictSet_self]
        rfl
      · rw [alookup_dictSet_ne _ _ _ _ (by decide), alookup_dictSet_self]
        rfl
      · rw [alookup_dictSet_self]
        rfl

/-- Witness for C10: a successful call on an empty raw response — country
and loc both absent — returns all three keys present with value None. -/
theorem C10_derived_keys_always_present_witness :
    (alookup [("country_name", JVal.jnull), ("latitude", JVal.jnull),
      ("longitude", JVal.jnull)] "country_name").isSome ∧
    (alookup [("country_name", JVal.jnull), ("latitude", JVal.jnull),
      ("longitude", JVal.jnull)] "latitude").isSome ∧
    (alookup [("country_name", JVal.jnull), ("latitude", JVal.jnull),
      ("longitude", JVal.jnull)] "longitude").isSome :=
  C10_derived_keys_always_present (fun _ => some (.jobj []))
    ⟨none, .jobj [], ⟨10, 100, []⟩⟩ (fun _ _ => ⟨200, ""⟩) 0 (some "8.8.8.8")
    [("country_name", JVal.jnull), ("latitude", JVal.jnull),
      ("longitude", JVal.jnull)] rfl

end IPInfo
